import Mathlib

/-!
Verification development for `StringIndexMarisa`
(src/internal/core/src/index/StringIndexMarisa.cpp).

The C++ class is embedded shallowly:

* `std::string` values are modelled as `Str := List Char`.
* The external marisa trie ("Trie Engine" collaborator, not part of src/) is
  modelled from its interface contract: `build` deduplicates the keyset and
  assigns dense zero-based ordinal IDs; `lookup` returns the ID of a stored
  key or `none`; `predictiveSearch` enumerates the IDs of all keys having a
  given prefix.  The particular ID order the model uses (position in
  `List.dedup`) is one representative dense assignment; IDs are an
  implementation detail of the engine.
* `str_ids_to_offsets_` (a `std::map<size_t, std::vector<size_t>>`) is
  modelled as a function `Nat → Option (List Nat)`, `none` meaning the key is
  absent.  `operator[]` both reads and default-inserts, which `mapAccess`
  (query-side read) and `mapPush` (`fill_offsets` side) make explicit.
* Exceptions (`std::runtime_error`, `std::out_of_range` from
  `BinarySet::GetByName`, and marisa's `MARISA_STATE_ERROR` thrown by trie
  operations on a never-built/never-read trie) are modelled with `Except`;
  every operation also returns the post-call instance state, so that frame
  and atomicity properties can be stated.
* `StringIndexMarisa::lookup` calls `trie_.lookup(agent)` and ignores its
  boolean result, returning `agent.key().id()` unconditionally.  A freshly
  constructed `marisa::Agent` has key id `0` and a failed lookup leaves the
  key unset, so a missing value yields id `0`; this is modelled by
  `(t.lookup s).getD 0`.  The `if (str_id >= 0)` guards in `In`/`NotIn` (and
  the `assert(str_id >= 0)` in `fill_str_ids`) compare an unsigned `size_t`
  against zero and are therefore always true; they are modelled as absent.
* The serialized form (`BinarySet`) carries two named segments,
  `MARISA_TRIE_INDEX` and `MARISA_STR_IDS`.  Byte layouts are abstracted:
  the trie segment is represented by the trie it decodes to (`none` for a
  byte string marisa's reader rejects; marisa swaps the new trie in only
  after a successful read, so a failed read leaves `trie_` unchanged), and
  the offsets segment by the `size_t` sequence it holds.
-/

abbrev Str := List Char

/-- A result bitmap (`TargetBitmap`): a fixed-length bit vector, bit `i`
stands for row offset `i`. -/
abbrev Bitmap := List Bool

/-- The bitmap collaborator's bitwise negation. -/
def bitmapNot (b : Bitmap) : Bitmap := b.map not

/-- Modelled from the spec: the Trie Engine collaborator (marisa), which is
not part of src/.  It stores a deduplicated keyset; the ordinal ID of a key
is its position in `keys`. -/
structure TrieModel where
  keys : List Str
deriving DecidableEq

/-- Modelled from the spec: `trie_.build(keyset)` deduplicates the keys and
assigns dense zero-based ordinal IDs. -/
def TrieModel.build (values : List Str) : TrieModel := ⟨values.dedup⟩

/-- Position of `s` in a key list (meaningful only when `s` occurs). -/
def idxOf : List Str → Str → Nat
  | [], _ => 0
  | k :: rest, s => if k = s then 0 else idxOf rest s + 1

/-- Modelled from the spec: exact lookup in the Trie Engine, returning the
ordinal ID of a stored key, or `none` when the key is absent. -/
def TrieModel.lookup (t : TrieModel) (s : Str) : Option Nat :=
  if s ∈ t.keys then some (idxOf t.keys s) else none

/-- Modelled from the spec: predictive search, enumerating the ordinal IDs of
all stored keys that have the given prefix. -/
def TrieModel.predictiveSearch (t : TrieModel) (pfx : Str) : List Nat :=
  (List.range t.keys.length).filter (fun i => pfx.isPrefixOf (t.keys.getD i []))

/-- Number of stored keys (`trie_.size()` component). -/
def TrieModel.size (t : TrieModel) : Nat := t.keys.length

/-- The inverse map `str_ids_to_offsets_` (`std::map<size_t, std::vector<size_t>>`):
`none` models an absent key. -/
abbrev OffsetsMap := Nat → Option (List Nat)

def emptyMap : OffsetsMap := fun _ => none

/-- One `fill_offsets` loop body: `str_ids_to_offsets_[id].push_back(off)`,
with the preceding lazy creation of an empty vector on first sight of `id`. -/
def mapPush (m : OffsetsMap) (id off : Nat) : OffsetsMap :=
  fun k => if k = id then some ((m id).getD [] ++ [off]) else m k

/-- The query-side read `str_ids_to_offsets_[str_id]`: `std::map::operator[]`
default-inserts an empty vector when the key is absent, so the read returns
the (possibly empty) current list and may enlarge the map. -/
def mapAccess (m : OffsetsMap) (id : Nat) : OffsetsMap :=
  fun k => if k = id then some ((m id).getD []) else m k

/-- The instance state of a `StringIndexMarisa` object.  `trie = none` models
a marisa trie that was never built or read (its operations throw
`MARISA_STATE_ERROR`). -/
structure IndexState where
  built : Bool
  trie : Option TrieModel
  str_ids : List Nat
  str_ids_to_offsets : OffsetsMap

/-- A freshly constructed instance. -/
def initState : IndexState := ⟨false, none, [], emptyMap⟩

inductive QueryError where
  | stateError
deriving DecidableEq

inductive BuildError where
  | alreadyBuilt
deriving DecidableEq

inductive LoadError where
  | missingSegment
  | decodeFailure
deriving DecidableEq

namespace StringIndexMarisa

/-- `StringIndexMarisa::lookup`: the `bool` returned by `trie_.lookup(agent)`
is ignored; on a miss the fresh agent's key id `0` is returned. -/
def lookup (t : TrieModel) (s : Str) : Nat := (t.lookup s).getD 0

/-- `StringIndexMarisa::fill_str_ids`: resize `str_ids_` to `n` and store the
looked-up id of each value (the `assert(str_id >= 0)` is vacuous on
`size_t`). -/
def fill_str_ids (t : TrieModel) (values : List Str) : List Nat :=
  values.map (fun v => lookup t v)

/-- The `fill_offsets` scan, carrying the current offset counter. -/
def fill_offsets_from (m : OffsetsMap) : List Nat → Nat → OffsetsMap
  | [], _ => m
  | i :: rest, off => fill_offsets_from (mapPush m i off) rest (off + 1)

/-- `StringIndexMarisa::fill_offsets`: scan `str_ids_` in ascending offset
order, appending each offset to the list of its id.  Note: the existing map
is not cleared first. -/
def fill_offsets (m : OffsetsMap) (ids : List Nat) : OffsetsMap :=
  fill_offsets_from m ids 0

/-- `StringIndexMarisa::Build`: reject when already built; otherwise build
the trie from the keyset, run `fill_str_ids` and `fill_offsets`, and set
`built_`. -/
def Build (st : IndexState) (values : List Str) :
    Except BuildError Unit × IndexState :=
  if st.built then (.error .alreadyBuilt, st)
  else
    let t := TrieModel.build values
    let ids := fill_str_ids t values
    (.ok (), { built := true, trie := some t, str_ids := ids,
               str_ids_to_offsets := fill_offsets st.str_ids_to_offsets ids })

/-- `StringIndexMarisa::Size`: `trie_.size()`; a never-built/never-read trie
raises `MARISA_STATE_ERROR`. -/
def Size (st : IndexState) : Except QueryError Nat :=
  match st.trie with
  | none => .error .stateError
  | some t => .ok t.size

/-- The serialized `BinarySet`: `trieData` is the `MARISA_TRIE_INDEX`
segment (represented by the trie its bytes decode to, inner `none` for bytes
marisa's reader rejects) and `idsData` the `MARISA_STR_IDS` segment
(represented as the `size_t` sequence it carries); the outer `Option` is
segment presence (`GetByName` throws on a missing name). -/
structure BinarySet where
  trieData : Option (Option TrieModel)
  idsData : Option (List Nat)
deriving DecidableEq

/-- `StringIndexMarisa::Serialize`: dump the trie bytes (via the temp file)
and the raw `str_ids_` array into the two named segments.  No member of the
instance is assigned; on a never-built trie `trie_.write` raises
`MARISA_STATE_ERROR`.  The trie dump is byte-exact, so the segment decodes
back to the same trie. -/
def Serialize (st : IndexState) : Except QueryError BinarySet × IndexState :=
  match st.trie with
  | none => (.error .stateError, st)
  | some t => (.ok ⟨some (some t), some st.str_ids⟩, st)

/-- `StringIndexMarisa::Load`, step by step in source order:
`GetByName(MARISA_TRIE_INDEX)` (throws when missing, nothing mutated yet);
`trie_.read` (marisa swaps the decoded trie in only on success, so a decode
failure leaves the member unchanged); `GetByName(MARISA_STR_IDS)` (throws
when missing — at this point `trie_` has already been replaced);
`str_ids_` from the raw bytes; `fill_offsets` into the existing map.
`built_` is never assigned. -/
def Load (st : IndexState) (set : BinarySet) :
    Except LoadError Unit × IndexState :=
  match set.trieData with
  | none => (.error .missingSegment, st)
  | some none => (.error .decodeFailure, st)
  | some (some t) =>
    let st1 := { st with trie := some t }
    match set.idsData with
    | none => (.error .missingSegment, st1)
    | some ids =>
      let st2 := { st1 with str_ids := ids }
      (.ok (), { st2 with
                 str_ids_to_offsets := fill_offsets st2.str_ids_to_offsets ids })

/-- The `In` loop: look up each value (id `0` on a miss), read — and
possibly default-insert — its offsets list, and set those bits. -/
def In_go (t : TrieModel) : List Str → Bitmap → OffsetsMap → Bitmap × OffsetsMap
  | [], b, m => (b, m)
  | v :: rest, b, m =>
    let id := lookup t v
    let offs := (m id).getD []
    In_go t rest (offs.foldl (fun bb o => bb.set o true) b) (mapAccess m id)

/-- `StringIndexMarisa::In`: all-zero bitmap of size `str_ids_.size()`, then
the lookup loop.  On a never-built trie the first lookup (if any) raises
`MARISA_STATE_ERROR`; with no values the loop never runs and the empty
bitmap is returned even on an unbuilt instance. -/
def In (st : IndexState) (values : List Str) :
    Except QueryError Bitmap × IndexState :=
  match st.trie with
  | none =>
    match values with
    | [] => (.ok (List.replicate st.str_ids.length false), st)
    | _ :: _ => (.error .stateError, st)
  | some t =>
    let r := In_go t values (List.replicate st.str_ids.length false)
      st.str_ids_to_offsets
    (.ok r.1, { st with str_ids_to_offsets := r.2 })

/-- The `NotIn` loop: identical to the `In` loop except that matched bits
are cleared instead of set. -/
def NotIn_go (t : TrieModel) : List Str → Bitmap → OffsetsMap → Bitmap × OffsetsMap
  | [], b, m => (b, m)
  | v :: rest, b, m =>
    let id := lookup t v
    let offs := (m id).getD []
    NotIn_go t rest (offs.foldl (fun bb o => bb.set o false) b) (mapAccess m id)

/-- `StringIndexMarisa::NotIn`: all-one bitmap (`bitset->set()`), then the
same loop as `In` with `reset`. -/
def NotIn (st : IndexState) (values : List Str) :
    Except QueryError Bitmap × IndexState :=
  match st.trie with
  | none =>
    match values with
    | [] => (.ok (List.replicate st.str_ids.length true), st)
    | _ :: _ => (.error .stateError, st)
  | some t =>
    let r := NotIn_go t values (List.replicate st.str_ids.length true)
      st.str_ids_to_offsets
    (.ok r.1, { st with str_ids_to_offsets := r.2 })

/-- `StringIndexMarisa::prefix_match`: collect the ids produced by the
engine's predictive search. -/
def prefix_match (t : TrieModel) (pfx : Str) : List Nat :=
  t.predictiveSearch pfx

/-- The `PrefixMatch` loop over the matched ids. -/
def PrefixMatch_go : List Nat → Bitmap → OffsetsMap → Bitmap × OffsetsMap
  | [], b, m => (b, m)
  | id :: rest, b, m =>
    let offs := (m id).getD []
    PrefixMatch_go rest (offs.foldl (fun bb o => bb.set o true) b) (mapAccess m id)

/-- `StringIndexMarisa::PrefixMatch`: all-zero bitmap, then union the offset
lists of every id returned by `prefix_match`.  `predictive_search` on a
never-built trie raises `MARISA_STATE_ERROR` for every prefix, the empty one
included. -/
def PrefixMatch (st : IndexState) (pfx : Str) :
    Except QueryError Bitmap × IndexState :=
  match st.trie with
  | none => (.error .stateError, st)
  | some t =>
    let r := PrefixMatch_go (prefix_match t pfx)
      (List.replicate st.str_ids.length false) st.str_ids_to_offsets
    (.ok r.1, { st with str_ids_to_offsets := r.2 })

end StringIndexMarisa

/-- The offsets at which `k` occurs in `ids`, shifted by `off`: the list
`fill_offsets_from` appends for key `k`. -/
def occList : List Nat → Nat → Nat → List Nat
  | [], _, _ => []
  | i :: rest, off, k =>
    (if k = i then [off] else []) ++ occList rest (off + 1) k

open StringIndexMarisa

/-! Concrete example values used by witnesses and counterexamples. -/

def strA : Str := ['a']
def strB : Str := ['b']

/-- The blob set produced by serializing an instance built from `[strA]`. -/
def bsA : BinarySet := ⟨some (some (TrieModel.build [strA])), some [0]⟩

/-- C10: Serialize does not mutate the instance it is called on — the
post-call state equals the pre-call state, so every query (In, NotIn,
PrefixMatch) returns the same bitmap before and after the Serialize call. -/
theorem c10_serialize_frame (st : IndexState) (V : List Str) (pfx : Str) :
    (Serialize st).2 = st
    ∧ (In (Serialize st).2 V).1 = (In st V).1
    ∧ (NotIn (Serialize st).2 V).1 = (NotIn st V).1
    ∧ (PrefixMatch (Serialize st).2 pfx).1 = (PrefixMatch st pfx).1 := by
  obtain ⟨b, tr, ids, m⟩ := st
  cases tr <;> exact ⟨rfl, rfl, rfl, rfl⟩

/-- C5 counterexample: a Load that fails (offsets segment missing) after the
trie segment has already been decoded leaves the decoded trie in the
instance — observable partial state (Size reports the loaded trie's size) —
refuting "no partially built state observable afterward". -/
theorem c5_load_partial_state :
    (Load initState ⟨some (some (TrieModel.build [strA])), none⟩).1
      = Except.error LoadError.missingSegment
    ∧ (Load initState ⟨some (some (TrieModel.build [strA])), none⟩).2.trie
      = some (TrieModel.build [strA])
    ∧ initState.trie = none
    ∧ Size (Load initState ⟨some (some (TrieModel.build [strA])), none⟩).2
      = Except.ok 1
    ∧ Size initState = Except.error QueryError.stateError := by
  exact ⟨rfl, rfl, rfl, rfl, rfl⟩

/-- C5 amended: a Load failing because the trie segment is missing, or
because the trie bytes do not decode, leaves the instance exactly as it was
(still Unbuilt); but a Load failing because the offsets segment is missing
after a successful trie decode leaves the decoded trie behind in the
instance — partial state is observable in that mode. -/
theorem c5_load_atomicity_amended (st : IndexState) (t : TrieModel)
    (ids? : Option (List Nat)) :
    (Load st ⟨none, ids?⟩).1 = Except.error LoadError.missingSegment
    ∧ (Load st ⟨none, ids?⟩).2 = st
    ∧ (Load st ⟨some none, ids?⟩).1 = Except.error LoadError.decodeFailure
    ∧ (Load st ⟨some none, ids?⟩).2 = st
    ∧ (Load st ⟨some (some t), none⟩).1 = Except.error LoadError.missingSegment
    ∧ (Load st ⟨some (some t), none⟩).2 = { st with trie := some t } := by
  exact ⟨rfl, rfl, rfl, rfl, rfl, rfl⟩

/-- C8 counterexample: on an Unbuilt (freshly constructed) instance, In with
an empty value list does not fail — it returns an empty bitmap — refuting
"calling any of the three query operations on an Unbuilt instance fails
immediately". -/
theorem c8_unbuilt_empty_in_succeeds :
    (In initState []).1 = Except.ok []
    ∧ (NotIn initState []).1 = Except.ok []
    ∧ (In initState []).2 = initState := by
  exact ⟨rfl, rfl, rfl⟩

/-- C8 amended: on a freshly constructed (never built or loaded) instance,
In or NotIn with a nonempty value list, and PrefixMatch with any prefix,
fail immediately and deterministically with the Trie Engine's state error,
leaving the instance unchanged; In and NotIn with an empty value list
instead succeed and return an empty bitmap. -/
theorem c8_unbuilt_queries_amended (v : Str) (vs : List Str) (pfx : Str) :
    (In initState (v :: vs)).1 = Except.error QueryError.stateError
    ∧ (In initState (v :: vs)).2 = initState
    ∧ (NotIn initState (v :: vs)).1 = Except.error QueryError.stateError
    ∧ (NotIn initState (v :: vs)).2 = initState
    ∧ (PrefixMatch initState pfx).1 = Except.error QueryError.stateError
    ∧ (PrefixMatch initState pfx).2 = initState
    ∧ (In initState []).1 = Except.ok []
    ∧ (NotIn initState []).1 = Except.ok [] := by
  exact ⟨rfl, rfl, rfl, rfl, rfl, rfl, rfl, rfl⟩

/-- C4: Load never assigns `built_`, so an instance loaded from the
serialized form of a built index still reports Unbuilt, and a subsequent
Build call is accepted (returns ok) instead of failing — the code violates
the claimed lifecycle. -/
theorem c4_build_after_load_accepted :
    (Serialize (Build initState [strA]).2).1 = Except.ok bsA
    ∧ ((Load initState bsA).2).built = false
    ∧ (Build ((Load initState bsA).2) [strB]).1 = Except.ok () := by
  exact ⟨rfl, rfl, rfl⟩

/-- C6: evaluating the code at the failing input.  `strB` is absent from a
trie built over `[strA]` (the engine lookup returns none), yet In sets the
bits of ordinal id 0's offsets — bit 0 — instead of returning the all-zero
bitmap: the `if (str_id >= 0)` guard on an unsigned `size_t` is vacuous and
a failed marisa lookup leaves the fresh agent's key id 0. -/
theorem c6_absent_value_sets_bits :
    TrieModel.lookup (TrieModel.build [strA]) strB = none
    ∧ (In (Build initState [strA]).2 [strB]).1 = Except.ok [true] := by
  exact ⟨rfl, rfl⟩

/-- C9 counterexample: running fill_offsets a second time over the same
`row_to_id` on an already-filled instance does not leave `id_to_offsets`
equal to the once-run result — the list for id 0 becomes `[0, 0]` instead of
`[0]`. -/
theorem c9_second_run_differs :
    fill_offsets ((Build initState [strA]).2.str_ids_to_offsets)
        ((Build initState [strA]).2.str_ids) 0
      = some [0, 0]
    ∧ (Build initState [strA]).2.str_ids_to_offsets 0 = some [0] := by
  exact ⟨rfl, rfl⟩

/-! ### Characterization of `fill_offsets` -/

theorem fill_offsets_from_getD (ids : List Nat) :
    ∀ (m : OffsetsMap) (off k : Nat),
      ((fill_offsets_from m ids off) k).getD []
        = (m k).getD [] ++ occList ids off k := by
  induction ids with
  | nil => intro m off k; simp [fill_offsets_from, occList]
  | cons i rest ih =>
    intro m off k
    rw [fill_offsets_from, ih, occList]
    by_cases h : k = i
    · subst h; simp [mapPush]
    · simp [mapPush, h]

theorem fill_offsets_from_eq_none (ids : List Nat) :
    ∀ (m : OffsetsMap) (off k : Nat),
      (fill_offsets_from m ids off) k = none ↔ (m k = none ∧ k ∉ ids) := by
  induction ids with
  | nil => intro m off k; simp [fill_offsets_from]
  | cons i rest ih =>
    intro m off k
    rw [fill_offsets_from, ih]
    by_cases h : k = i
    · subst h; simp [mapPush]
    · simp [mapPush, h]

theorem mem_occList (ids : List Nat) :
    ∀ (off k o : Nat),
      o ∈ occList ids off k ↔ ∃ i, ids.get? i = some k ∧ o = off + i := by
  induction ids with
  | nil => intro off k o; simp [occList]
  | cons j rest ih =>
    intro off k o
    rw [occList]
    constructor
    · intro hmem
      rcases List.mem_append.mp hmem with h1 | h2
      · by_cases h : k = j
        · rw [if_pos h] at h1
          have ho : o = off := List.mem_singleton.mp h1
          exact ⟨0, by simp [h.symm], by omega⟩
        · rw [if_neg h] at h1; cases h1
      · rcases (ih (off + 1) k o).mp h2 with ⟨i, hi, ho⟩
        exact ⟨i + 1, by simpa using hi, by omega⟩
    · rintro ⟨i, hi, rfl⟩
      cases i with
      | zero =>
        have : j = k := by simpa using hi
        subst this
        exact List.mem_append.mpr (Or.inl (by simp))
      | succ i2 =>
        refine List.mem_append.mpr (Or.inr ?_)
        exact (ih (off + 1) k (off + (i2 + 1))).mpr
          ⟨i2, by simpa using hi, by omega⟩

theorem occList_lower (ids : List Nat) (off k o : Nat)
    (h : o ∈ occList ids off k) : off ≤ o := by
  rcases (mem_occList ids off k o).mp h with ⟨i, _, rfl⟩
  omega

theorem occList_sorted (ids : List Nat) :
    ∀ (off k : Nat), List.Sorted (· < ·) (occList ids off k) := by
  induction ids with
  | nil => intro off k; simp [occList]
  | cons j rest ih =>
    intro off k
    rw [occList]
    by_cases h : k = j
    · rw [if_pos h]
      simp only [List.singleton_append]
      refine List.sorted_cons.mpr ⟨?_, ih (off + 1) k⟩
      intro b hb
      have := occList_lower rest (off + 1) k b hb
      omega
    · rw [if_neg h]; simpa using ih (off + 1) k

theorem fill_offsets_empty_getD (ids : List Nat) (k : Nat) :
    ((fill_offsets emptyMap ids) k).getD [] = occList ids 0 k := by
  rw [fill_offsets, fill_offsets_from_getD]
  simp [emptyMap]

theorem mem_fill_offsets_empty (ids : List Nat) (k o : Nat) :
    o ∈ ((fill_offsets emptyMap ids) k).getD [] ↔ ids.get? o = some k := by
  rw [fill_offsets_empty_getD, mem_occList]
  constructor
  · rintro ⟨i, hi, rfl⟩; simpa using hi
  · intro h; exact ⟨o, h, by omega⟩

theorem fill_offsets_empty_sorted (ids : List Nat) (k : Nat) :
    List.Sorted (· < ·) (((fill_offsets emptyMap ids) k).getD []) := by
  rw [fill_offsets_empty_getD]; exact occList_sorted ids 0 k

theorem fill_offsets_empty_count (ids : List Nat) (k o : Nat)
    (h : ids.get? o = some k) :
    List.count o (((fill_offsets emptyMap ids) k).getD []) = 1 := by
  have hmem : o ∈ ((fill_offsets emptyMap ids) k).getD [] :=
    (mem_fill_offsets_empty ids k o).mpr h
  have hnd : (((fill_offsets emptyMap ids) k).getD []).Nodup :=
    (fill_offsets_empty_sorted ids k).nodup
  exact List.count_eq_one_of_mem hnd hmem

theorem fill_offsets_empty_union (ids : List Nat) (o : Nat) :
    (∃ k, o ∈ ((fill_offsets emptyMap ids) k).getD []) ↔ o < ids.length := by
  constructor
  · rintro ⟨k, hk⟩
    have := (mem_fill_offsets_empty ids k o).mp hk
    by_contra hlt
    rw [List.get?_eq_none.mpr (by omega)] at this
    cases this
  · intro h
    exact ⟨ids.get ⟨o, h⟩, (mem_fill_offsets_empty ids _ o).mpr (List.get?_eq_get h)⟩

/-- C3: offset-partition invariant.  After a Build with input `values`
(and likewise after a successful Load carrying `row_to_id = ids0`), with
`n` the length of `row_to_id`: every offset `o < n` lies in the list of its
own id `row_to_id[o]` (membership iff), exactly once (count one), the union
of all lists is exactly `{0, ..., n-1}` (an offset lies in some list iff it
is below `n`), and every list is strictly ascending. -/
theorem c3_offset_partition (values : List Str) (t : TrieModel)
    (ids0 : List Nat) :
    ((∀ o k, o ∈ (((Build initState values).2.str_ids_to_offsets k).getD [])
        ↔ (Build initState values).2.str_ids.get? o = some k)
     ∧ (∀ o k, (Build initState values).2.str_ids.get? o = some k →
        List.count o
          (((Build initState values).2.str_ids_to_offsets k).getD []) = 1)
     ∧ (∀ o, (∃ k,
          o ∈ (((Build initState values).2.str_ids_to_offsets k).getD []))
        ↔ o < (Build initState values).2.str_ids.length)
     ∧ (∀ k, List.Sorted (· < ·)
        (((Build initState values).2.str_ids_to_offsets k).getD [])))
    ∧ ((∀ o k,
        o ∈ (((Load initState ⟨some (some t), some ids0⟩).2.str_ids_to_offsets
          k).getD [])
        ↔ (Load initState ⟨some (some t), some ids0⟩).2.str_ids.get? o = some k)
     ∧ (∀ o k,
        (Load initState ⟨some (some t), some ids0⟩).2.str_ids.get? o = some k →
        List.count o
          (((Load initState ⟨some (some t), some ids0⟩).2.str_ids_to_offsets
            k).getD []) = 1)
     ∧ (∀ o, (∃ k, o ∈ (((Load initState
            ⟨some (some t), some ids0⟩).2.str_ids_to_offsets k).getD []))
        ↔ o < (Load initState ⟨some (some t), some ids0⟩).2.str_ids.length)
     ∧ (∀ k, List.Sorted (· < ·)
        (((Load initState ⟨some (some t), some ids0⟩).2.str_ids_to_offsets
          k).getD []))) := by
  constructor
  · exact ⟨fun o k => mem_fill_offsets_empty _ k o,
      fun o k h => fill_offsets_empty_count _ k o h,
      fun o => fill_offsets_empty_union _ o,
      fun k => fill_offsets_empty_sorted _ k⟩
  · exact ⟨fun o k => mem_fill_offsets_empty _ k o,
      fun o k h => fill_offsets_empty_count _ k o h,
      fun o => fill_offsets_empty_union _ o,
      fun k => fill_offsets_empty_sorted _ k⟩

/-- C3 witness: the partition invariant instantiated on the instance built
from `[strA, strB, strA]`: offset 1 (value `strB`, ordinal id 0 in the
model) appears in the list of its id exactly once. -/
theorem c3_offset_partition_witness :
    (Build initState [strA, strB, strA]).2.str_ids.get? 1 = some 0
    ∧ List.count 1
        (((Build initState [strA, strB, strA]).2.str_ids_to_offsets 0).getD [])
      = 1 :=
  ⟨rfl, (c3_offset_partition [strA, strB, strA] ⟨[]⟩ []).1.2.1 1 0 rfl⟩

/-- C9 amended: `fill_offsets` is not idempotent — it appends rather than
rebuilds.  For every starting map `m`, every `row_to_id` and every id `k`,
the list after a run is the previous list concatenated with the offsets of
`k` in `row_to_id`; hence a second run over the same `row_to_id` leaves each
list duplicated (`once ++ once`), and the once-run result is recovered only
when the map being filled is empty, as on a fresh Build or Load. -/
theorem c9_fill_offsets_appends (m : OffsetsMap) (ids : List Nat) (k : Nat) :
    ((fill_offsets m ids) k).getD [] = (m k).getD [] ++ occList ids 0 k
    ∧ ((fill_offsets (fill_offsets emptyMap ids) ids) k).getD []
        = occList ids 0 k ++ occList ids 0 k := by
  refine ⟨fill_offsets_from_getD ids m 0 k, ?_⟩
  rw [fill_offsets, fill_offsets_from_getD, fill_offsets_empty_getD]

/-! ### NotIn as the negation of In -/

theorem set_false_bitmapNot (b : Bitmap) (o : Nat) :
    (bitmapNot b).set o false = bitmapNot (b.set o true) := by
  simp [bitmapNot, List.map_set]

theorem foldl_reset_bitmapNot (offs : List Nat) :
    ∀ b : Bitmap,
      offs.foldl (fun bb o => bb.set o false) (bitmapNot b)
        = bitmapNot (offs.foldl (fun bb o => bb.set o true) b) := by
  induction offs with
  | nil => intro b; rfl
  | cons o rest ih =>
    intro b
    rw [List.foldl_cons, List.foldl_cons, set_false_bitmapNot, ih]

theorem NotIn_go_eq_bitmapNot_In_go (t : TrieModel) (V : List Str) :
    ∀ (b : Bitmap) (m : OffsetsMap),
      NotIn_go t V (bitmapNot b) m
        = (bitmapNot (In_go t V b m).1, (In_go t V b m).2) := by
  induction V with
  | nil => intro b m; rfl
  | cons v rest ih =>
    intro b m
    rw [NotIn_go, In_go, foldl_reset_bitmapNot, ih]

/-- C2: for every instance whose trie has been built or read, and every
finite list of query values `V`, the bitmap NotIn returns equals the bitwise
negation of the bitmap In returns for the same `V`. -/
theorem c2_notIn_eq_bitmapNot_in (st : IndexState) (t : TrieModel)
    (V : List Str) (h : st.trie = some t) :
    (NotIn st V).1 = Except.map bitmapNot (In st V).1 := by
  obtain ⟨bf, tr, ids, m⟩ := st
  simp only at h
  subst h
  have hrep : (List.replicate ids.length true : Bitmap)
      = bitmapNot (List.replicate ids.length false) := by
    simp [bitmapNot]
  show (NotIn ⟨bf, some t, ids, m⟩ V).1
      = Except.map bitmapNot (In ⟨bf, some t, ids, m⟩ V).1
  simp only [NotIn, In]
  rw [hrep, NotIn_go_eq_bitmapNot_In_go]
  rfl

/-- C2 witness: the negation law at the instance built from
`[strA, strB, strA]` with query values `[strA]`. -/
theorem c2_notIn_eq_bitmapNot_in_witness :
    (NotIn (Build initState [strA, strB, strA]).2 [strA]).1
      = Except.map bitmapNot
          (In (Build initState [strA, strB, strA]).2 [strA]).1 :=
  c2_notIn_eq_bitmapNot_in (Build initState [strA, strB, strA]).2
    (TrieModel.build [strA, strB, strA]) [strA] rfl

/-! ### Round trip -/

/-- C1: round-trip law.  For an instance `X` successfully built from any
input values, serializing `X` and loading the resulting blob set into a
fresh instance yields an instance that returns bitmaps identical to `X`'s
for In, NotIn and PrefixMatch on every sequence of input values and every
prefix.  (The marisa dump is byte-exact, so the decoded trie — and with it
the ordinal ID assignment — coincides with the original; the inverse offset
map is rebuilt by `fill_offsets` from the identical `row_to_id`.) -/
theorem c1_round_trip (values V : List Str) (pfx : Str) (bs : BinarySet)
    (h : (Serialize (Build initState values).2).1 = Except.ok bs) :
    (In (Load initState bs).2 V).1 = (In (Build initState values).2 V).1
    ∧ (NotIn (Load initState bs).2 V).1
        = (NotIn (Build initState values).2 V).1
    ∧ (PrefixMatch (Load initState bs).2 pfx).1
        = (PrefixMatch (Build initState values).2 pfx).1 := by
  have hs : (Serialize (Build initState values).2).1
      = Except.ok (⟨some (some (TrieModel.build values)),
          some (fill_str_ids (TrieModel.build values) values)⟩ : BinarySet) :=
    rfl
  rw [hs] at h
  injection h with h
  subst h
  exact ⟨rfl, rfl, rfl⟩

/-- The blob set obtained by serializing the instance built from
`[strA, strB, strA]`. -/
def bsABA : BinarySet :=
  ⟨some (some (TrieModel.build [strA, strB, strA])),
   some (fill_str_ids (TrieModel.build [strA, strB, strA]) [strA, strB, strA])⟩

/-- C1 witness: the round-trip law at the instance built from
`[strA, strB, strA]`, query values `[strA]` and prefix `strA`. -/
theorem c1_round_trip_witness :
    (In (Load initState bsABA).2 [strA]).1
      = (In (Build initState [strA, strB, strA]).2 [strA]).1
    ∧ (NotIn (Load initState bsABA).2 [strA]).1
        = (NotIn (Build initState [strA, strB, strA]).2 [strA]).1
    ∧ (PrefixMatch (Load initState bsABA).2 strA).1
        = (PrefixMatch (Build initState [strA, strB, strA]).2 strA).1 :=
  c1_round_trip [strA, strB, strA] [strA] strA bsABA rfl

/-! ### Query frame condition -/

theorem idxOf_lt_length (ks : List Str) (s : Str) (hs : s ∈ ks) :
    idxOf ks s < ks.length := by
  induction ks with
  | nil => cases hs
  | cons k rest ih =>
    rw [idxOf]
    by_cases h : k = s
    · rw [if_pos h]; simp
    · rw [if_neg h]
      have hmem : s ∈ rest := by
        rcases List.mem_cons.mp hs with h1 | h1
        · exact absurd h1.symm h
        · exact h1
      have := ih hmem
      simp only [List.length_cons]
      omega

theorem idxOf_get (ks : List Str) (hnd : ks.Nodup) :
    ∀ (i : Nat) (h : i < ks.length), idxOf ks (ks.get ⟨i, h⟩) = i := by
  induction ks with
  | nil => intro i h; cases h
  | cons k rest ih =>
    intro i h
    cases i with
    | zero => rw [idxOf]; simp
    | succ i2 =>
      rw [idxOf]
      have hget : (k :: rest).get ⟨i2 + 1, h⟩
          = rest.get ⟨i2, Nat.lt_of_succ_lt_succ h⟩ := rfl
      rw [hget]
      have hk : k ≠ rest.get ⟨i2, Nat.lt_of_succ_lt_succ h⟩ := by
        intro he
        exact (List.nodup_cons.mp hnd).1 (he ▸ List.get_mem rest _ _)
      rw [if_neg hk, ih (List.nodup_cons.mp hnd).2 i2 (Nat.lt_of_succ_lt_succ h)]

theorem id_mem_fill_str_ids (values : List Str) (i : Nat)
    (hi : i < (TrieModel.build values).keys.length) :
    i ∈ fill_str_ids (TrieModel.build values) values := by
  have hkeys : (TrieModel.build values).keys = values.dedup := rfl
  have hmemk : (TrieModel.build values).keys.get ⟨i, hi⟩
      ∈ (TrieModel.build values).keys := List.get_mem _ _ _
  have hmemv : (TrieModel.build values).keys.get ⟨i, hi⟩ ∈ values :=
    List.mem_dedup.mp hmemk
  refine List.mem_map.mpr ⟨(TrieModel.build values).keys.get ⟨i, hi⟩, hmemv, ?_⟩
  rw [lookup, TrieModel.lookup, if_pos hmemk]
  have hnd : (TrieModel.build values).keys.Nodup := by
    rw [hkeys]; exact values.nodup_dedup
  rw [Option.getD_some, idxOf_get _ hnd i hi]

theorem lookup_mem_fill_str_ids (values : List Str) (v : Str)
    (hne : values ≠ []) :
    lookup (TrieModel.build values) v
      ∈ fill_str_ids (TrieModel.build values) values := by
  by_cases h : v ∈ (TrieModel.build values).keys
  · have : lookup (TrieModel.build values) v
        = idxOf (TrieModel.build values).keys v := by
      rw [lookup, TrieModel.lookup, if_pos h, Option.getD_some]
    rw [this]
    exact id_mem_fill_str_ids values _ (idxOf_lt_length _ v h)
  · have hzero : lookup (TrieModel.build values) v = 0 := by
      rw [lookup, TrieModel.lookup, if_neg h]; rfl
    rw [hzero]
    have hpos : 0 < (TrieModel.build values).keys.length := by
      rcases List.exists_mem_of_ne_nil values hne with ⟨w, hw⟩
      have : w ∈ (TrieModel.build values).keys := List.mem_dedup.mpr hw
      exact List.length_pos.mpr (List.ne_nil_of_mem this)
    exact id_mem_fill_str_ids values 0 hpos

theorem mapAccess_eq_self (m : OffsetsMap) (id : Nat) (h : m id ≠ none) :
    mapAccess m id = m := by
  funext k
  rw [mapAccess]
  by_cases hk : k = id
  · subst hk
    rw [if_pos rfl]
    cases hm : m k with
    | none => exact absurd hm h
    | some l => simp
  · rw [if_neg hk]

theorem In_go_map_eq (t : TrieModel) (V : List Str) :
    ∀ (b : Bitmap) (m : OffsetsMap),
      (∀ v, m (lookup t v) ≠ none) → (In_go t V b m).2 = m := by
  induction V with
  | nil => intro b m _; rfl
  | cons v rest ih =>
    intro b m hm
    rw [In_go]
    rw [mapAccess_eq_self m _ (hm v)]
    exact ih _ m hm

theorem NotIn_go_map_eq (t : TrieModel) (V : List Str) :
    ∀ (b : Bitmap) (m : OffsetsMap),
      (∀ v, m (lookup t v) ≠ none) → (NotIn_go t V b m).2 = m := by
  induction V with
  | nil => intro b m _; rfl
  | cons v rest ih =>
    intro b m hm
    rw [NotIn_go]
    rw [mapAccess_eq_self m _ (hm v)]
    exact ih _ m hm

theorem PrefixMatch_go_map_eq :
    ∀ (L : List Nat) (b : Bitmap) (m : OffsetsMap),
      (∀ id ∈ L, m id ≠ none) → (PrefixMatch_go L b m).2 = m := by
  intro L
  induction L with
  | nil => intro b m _; rfl
  | cons id rest ih =>
    intro b m hm
    rw [PrefixMatch_go]
    rw [mapAccess_eq_self m _ (hm id (by simp))]
    exact ih _ m (fun j hj => hm j (by simp [hj]))

theorem In_state_eq (bf : Bool) (t : TrieModel) (ids : List Nat)
    (m : OffsetsMap) (V : List Str) (hm : ∀ v, m (lookup t v) ≠ none) :
    (In ⟨bf, some t, ids, m⟩ V).2 = ⟨bf, some t, ids, m⟩ := by
  show (⟨bf, some t, ids,
      (In_go t V (List.replicate ids.length false) m).2⟩ : IndexState) = _
  rw [In_go_map_eq t V _ m hm]

theorem NotIn_state_eq (bf : Bool) (t : TrieModel) (ids : List Nat)
    (m : OffsetsMap) (V : List Str) (hm : ∀ v, m (lookup t v) ≠ none) :
    (NotIn ⟨bf, some t, ids, m⟩ V).2 = ⟨bf, some t, ids, m⟩ := by
  show (⟨bf, some t, ids,
      (NotIn_go t V (List.replicate ids.length true) m).2⟩ : IndexState) = _
  rw [NotIn_go_map_eq t V _ m hm]

theorem PrefixMatch_state_eq (bf : Bool) (t : TrieModel) (ids : List Nat)
    (m : OffsetsMap) (pfx : Str)
    (hm : ∀ id ∈ prefix_match t pfx, m id ≠ none) :
    (PrefixMatch ⟨bf, some t, ids, m⟩ pfx).2 = ⟨bf, some t, ids, m⟩ := by
  show (⟨bf, some t, ids,
      (PrefixMatch_go (prefix_match t pfx)
        (List.replicate ids.length false) m).2⟩ : IndexState) = _
  rw [PrefixMatch_go_map_eq (prefix_match t pfx) _ m hm]

/-- C7 counterexample: on a built instance with zero rows, In with a value
modifies `str_ids_to_offsets_`: the (absent) value resolves to ordinal id 0
and `std::map::operator[]` default-inserts an empty offsets list for key 0,
which was not present before the query — refuting "the instance state after
the query equals the state before it" for every built instance. -/
theorem c7_empty_index_query_inserts :
    ((In (Build initState ([] : List Str)).2 [strA]).2).str_ids_to_offsets 0
      = some []
    ∧ (Build initState ([] : List Str)).2.str_ids_to_offsets 0 = none := by
  exact ⟨rfl, rfl⟩

/-- C7 amended: on an instance built from a nonempty input column, no call
to In, NotIn or PrefixMatch — for any input values or prefix, including
values absent from the trie — changes the instance state: `row_to_id`, the
trie and `id_to_offsets` are all left intact (every ordinal id a query can
touch, including the id-0 fallback produced for an absent value, is already
a key of the map).  Only on a built instance with zero rows can In/NotIn
default-insert an empty list for id 0, which changes no query result. -/
theorem c7_query_frame_amended (values V : List Str) (pfx : Str)
    (hne : values ≠ []) :
    (In (Build initState values).2 V).2 = (Build initState values).2
    ∧ (NotIn (Build initState values).2 V).2 = (Build initState values).2
    ∧ (PrefixMatch (Build initState values).2 pfx).2
        = (Build initState values).2 := by
  have hcov : ∀ j, j ∈ fill_str_ids (TrieModel.build values) values →
      fill_offsets emptyMap (fill_str_ids (TrieModel.build values) values) j
        ≠ none := by
    intro j hj hc
    rw [fill_offsets] at hc
    exact ((fill_offsets_from_eq_none _ emptyMap 0 j).mp hc).2 hj
  exact ⟨In_state_eq true _ _ _ V
      (fun v => hcov _ (lookup_mem_fill_str_ids values v hne)),
    NotIn_state_eq true _ _ _ V
      (fun v => hcov _ (lookup_mem_fill_str_ids values v hne)),
    PrefixMatch_state_eq true _ _ _ pfx
      (fun id hid => hcov _ (id_mem_fill_str_ids values id
        (List.mem_range.mp (List.mem_filter.mp hid).1)))⟩

/-- C7 witness: the frame property instantiated on the instance built from
`[strA]`, with query values `[strB]` (absent from the trie) and prefix
`strB`. -/
theorem c7_query_frame_amended_witness :
    (In (Build initState [strA]).2 [strB]).2 = (Build initState [strA]).2
    ∧ (NotIn (Build initState [strA]).2 [strB]).2 = (Build initState [strA]).2
    ∧ (PrefixMatch (Build initState [strA]).2 strB).2
        = (Build initState [strA]).2 :=
  c7_query_frame_amended [strA] [strB] strB (List.cons_ne_nil _ _)
